import Mathlib

/-!
Verification development for the CaddyMate navigation engine (`src/map.py`).

The embedding translates the navigation core of `map.py` into Lean:
the store-layout builder `generate_map`, the Theta* pathfinder and its
line-of-sight test, the pose-smoothing step of `update_visuals`, and the
controller logic of `start_navigation` / `poll_position_update`.

Python floats are modelled as exact numbers: values whose arithmetic stays
rational (grid bookkeeping, Bresenham error terms, smoothing factors) use
`ℚ`; values mixing square roots or π (Euclidean distances, headings) use
`ℝ`.  Grid cells are integer pairs as in the source.
-/

set_option maxRecDepth 100000

namespace StoreNav

/-- A grid cell: a (row, column) pair of integers, as in the Python tuples. -/
abbrev Cell := ℤ × ℤ

/-- The grid: a list of rows, each a list of 0 (walkable) / 1 (obstacle),
mirroring the 2D Python list built by `generate_map`. -/
abbrev Grid := List (List ℕ)

/-- Reading `grid[r][c]`.  All accesses made by the claims are in bounds;
out-of-range coordinates are mapped to 1 (blocked) so that the function is
total.  (Python would raise or wrap on such accesses; none occur here.) -/
def cellAt (g : Grid) (p : Cell) : ℕ :=
  if p.1 < 0 ∨ p.2 < 0 then 1 else (g.getD p.1.toNat []).getD p.2.toNat 1

/-! ## GridBuilder: `generate_map` (map.py lines 32-92) -/

/-- map.py line 36. -/
def SHELF_WIDTH : ℕ := 2
/-- map.py line 37. -/
def SHELF_HEIGHT : ℕ := 8
/-- map.py line 38. -/
def SHELF_SPACING_X : ℕ := 5
/-- map.py line 40. -/
def START_X : ℕ := 3
/-- map.py line 41. -/
def ROW_1_Y : ℕ := 3
/-- map.py line 42. -/
def ROW_2_Y : ℕ := 16
/-- map.py line 44. -/
def SHELVES_PER_ROW : ℕ := 7
/-- map.py line 50. -/
def grid_width : ℕ := 39
/-- map.py line 54. -/
def grid_height : ℕ := 28

/-- In-place update `grid[r][c] = v` on the list-of-rows representation. -/
def setCell (g : Grid) (r c v : ℕ) : Grid :=
  g.set r ((g.getD r []).set c v)

/-- The wall loops of `generate_map` (map.py lines 59-65): first both side
columns of every row, then the top and bottom row of every column. -/
def addWalls (g : Grid) : Grid :=
  let g1 := (List.range grid_height).foldl
    (fun g r => setCell (setCell g r 0 1) r (grid_width - 1) 1) g
  (List.range grid_width).foldl
    (fun g c => setCell (setCell g 0 c 1) (grid_height - 1) c 1) g1

/-- The shelf loops of `generate_map` (map.py lines 67-74): two shelf rows,
seven shelves each, each shelf an 8-row by 2-column block; the source guards
each write with a bounds check (the lower bounds are trivial on `ℕ`). -/
def placeShelves (g0 : Grid) : Grid :=
  [ROW_1_Y, ROW_2_Y].foldl (fun g row_start_y =>
    (List.range SHELVES_PER_ROW).foldl (fun g i =>
      let sx := START_X + i * SHELF_SPACING_X
      (List.range SHELF_HEIGHT).foldl (fun g dr =>
        (List.range SHELF_WIDTH).foldl (fun g dc =>
          let r := row_start_y + dr
          let c := sx + dc
          if r < grid_height ∧ c < grid_width then setCell g r c 1 else g) g) g) g) g0

/-- One aisle record of `aisle_locs` (map.py lines 85-89): `top` and
`bottom` are label anchors holding the float column `cx`; `goal` applies
Python `int()` (truncation, here floor of positive values) to the midpoint
row and to `cx`. -/
structure AisleLoc where
  top : ℚ × ℚ
  bottom : ℚ × ℚ
  goal : Cell
deriving Repr, DecidableEq

/-- The aisle record for shelf-row start `row_start_y` and index `i`
(map.py lines 80-89). -/
def aisleLocFor (row_start_y i : ℕ) : AisleLoc :=
  let cx : ℚ := 3 / 2 + i * (SHELF_SPACING_X : ℚ)
  let top_y : ℚ := row_start_y
  let bot_y : ℚ := row_start_y + SHELF_HEIGHT - 1
  let mid_y : ℚ := (top_y + bot_y) / 2
  ⟨(top_y, cx), (bot_y, cx), (⌊mid_y⌋, ⌊cx⌋)⟩

/-- The aisle table of `generate_map` (map.py lines 76-90): for each of the
two shelf rows, `SHELVES_PER_ROW + 1` aisles, keyed by the decimal string of
a counter starting at 1. -/
def aisle_locs : List (String × AisleLoc) :=
  (([ROW_1_Y, ROW_2_Y].flatMap fun row_start_y =>
    (List.range (SHELVES_PER_ROW + 1)).map fun i =>
      aisleLocFor row_start_y i).enum).map fun p => (toString (p.1 + 1), p.2)

/-- `generate_map` (map.py lines 32-92).  The source never reads its two
parameters: the grid dimensions and layout are hard-coded. -/
def generate_map (num_aisles num_rows : ℤ) : Grid × List (String × AisleLoc) × ℕ × ℕ :=
  let grid0 : Grid := List.replicate grid_height (List.replicate grid_width 0)
  (placeShelves (addWalls grid0), aisle_locs, grid_width, grid_height)

/-- The grid every `StoreMap` works on (map.py line 224 feeds `generate_map`
arguments that the function ignores). -/
def genGrid : Grid := (generate_map 16 2).1

/-- A cell is walkable. -/
def IsFree (g : Grid) (p : Cell) : Prop := cellAt g p = 0

/-- One 8-connected move between two free cells, the step relation of the
pathfinder's neighbourhood (map.py lines 164-167). -/
def AdjStep (g : Grid) (p q : Cell) : Prop :=
  IsFree g p ∧ IsFree g q ∧ p ≠ q ∧ |q.1 - p.1| ≤ 1 ∧ |q.2 - p.2| ≤ 1

/-- Reachability along 8-connected free cells. -/
def Reachable (g : Grid) : Cell → Cell → Prop :=
  Relation.ReflTransGen (AdjStep g)

/-- Boolean check backing the aisle-goal part of the invariant: the goal
cell is free and the cell directly above it is free. -/
def goalOkb (p : Cell) : Bool :=
  (cellAt genGrid p == 0) && (cellAt genGrid (p.1 - 1, p.2) == 0)

/-! ## Pathfinder: `line_of_sight` (map.py lines 120-162)

The Bresenham error variable starts at `dc / 2.0` and is changed only by
integer amounts, so its float arithmetic is exact; it is modelled as `ℚ`.
The walkers carry fuel equal to the number of remaining major-axis steps;
the source loop runs exactly that many iterations, so the fuel-exhausted
branch (returning `false`) is never taken on the calls made by
`line_of_sight`. -/

/-- The column-major walk (map.py lines 136-148, the `dc > dr` branch):
loop `while c != c1`, stepping the column each iteration and the row when
the error term drops below zero, with the corner-cut check.  `dr`, `dc` are
the absolute deltas; `b` is the target cell. -/
def losWalkC (g : Grid) (b : Cell) (step_r step_c dr dc : ℤ) :
    ℕ → ℤ → ℤ → ℚ → Bool
  | fuel, r, c, err =>
    if c = b.2 then cellAt g b == 0
    else
      match fuel with
      | 0 => false
      | fuel + 1 =>
        if cellAt g (r, c) = 1 then false
        else
          let err := err - dr
          if err < 0 then
            if cellAt g (r + step_r, c) = 1 ∨ cellAt g (r, c + step_c) = 1 then false
            else losWalkC g b step_r step_c dr dc fuel (r + step_r) (c + step_c) (err + dc)
          else losWalkC g b step_r step_c dr dc fuel r (c + step_c) err

/-- The row-major walk (map.py lines 149-160, the `else` branch):
loop `while r != r1`, mirroring `losWalkC` with rows and columns swapped. -/
def losWalkR (g : Grid) (b : Cell) (step_r step_c dr dc : ℤ) :
    ℕ → ℤ → ℤ → ℚ → Bool
  | fuel, r, c, err =>
    if r = b.1 then cellAt g b == 0
    else
      match fuel with
      | 0 => false
      | fuel + 1 =>
        if cellAt g (r, c) = 1 then false
        else
          let err := err - dc
          if err < 0 then
            if cellAt g (r + step_r, c) = 1 ∨ cellAt g (r, c + step_c) = 1 then false
            else losWalkR g b step_r step_c dr dc fuel (r + step_r) (c + step_c) (err + dr)
          else losWalkR g b step_r step_c dr dc fuel (r + step_r) c err

/-- `line_of_sight(a, b)` (map.py lines 120-162): fails when either endpoint
is blocked, then walks the Bresenham line along the major axis. -/
def line_of_sight (g : Grid) (a b : Cell) : Bool :=
  if cellAt g a = 1 ∨ cellAt g b = 1 then false
  else
    let dr0 := b.1 - a.1
    let dc0 := b.2 - a.2
    let step_r : ℤ := if 0 < dr0 then 1 else -1
    let step_c : ℤ := if 0 < dc0 then 1 else -1
    let dr := |dr0|
    let dc := |dc0|
    if dr < dc then losWalkC g b step_r step_c dr dc dc.toNat a.1 a.2 ((dc : ℚ) / 2)
    else losWalkR g b step_r step_c dr dc dr.toNat a.1 a.2 ((dr : ℚ) / 2)

/-! ## Pathfinder: `theta_star` (map.py lines 95-205)

`g_score` values and heap priorities are Python floats mixing square roots;
they are modelled as extended reals (`float("inf")` becomes `⊤`), so the
search functions are noncomputable and the concrete runs below are evaluated
by rewriting.  The heap of `heapq` pops the least `(f, cell)` tuple in
lexicographic order — a total order, so the popped value is determined by
the multiset of entries; the model keeps the entries in a list and pops the
least element. -/

/-- Euclidean distance between two cells: `math.hypot` of the coordinate
deltas (map.py lines 117-118). -/
noncomputable def distance (a b : Cell) : ℝ :=
  Real.sqrt (((a.1 - b.1 : ℤ) : ℝ) ^ 2 + ((a.2 - b.2 : ℤ) : ℝ) ^ 2)

/-- The Euclidean heuristic (map.py lines 113-115), same formula as
`distance`. -/
noncomputable def heuristic (a b : Cell) : ℝ :=
  Real.sqrt (((a.1 - b.1 : ℤ) : ℝ) ^ 2 + ((a.2 - b.2 : ℤ) : ℝ) ^ 2)

/-- Lookup in an association list keyed by cells (the model of the Python
dicts `parent` and `g_score`). -/
def lookupA {α : Type} (l : List (Cell × α)) (k : Cell) : Option α :=
  (l.find? fun e => e.1 = k).map (·.2)

/-- Key update (insert or overwrite) in an association list. -/
def updateA {α : Type} : List (Cell × α) → Cell → α → List (Cell × α)
  | [], k, v => [(k, v)]
  | e :: t, k, v => if e.1 = k then (k, v) :: t else e :: updateA t k v

/-- Containment test for an association list (Python `key in dict`). -/
def hasA {α : Type} (l : List (Cell × α)) (k : Cell) : Bool :=
  (lookupA l k).isSome

/-- Reading `g_score[k]`; the default `⊤` is never hit on the keys the
algorithm reads (they are always present). -/
noncomputable def gval (gs : List (Cell × EReal)) (k : Cell) : EReal :=
  (lookupA gs k).getD ⊤

/-- The strict order of the Python tuples `(f, (r, c))` the heap is keyed
on: lexicographic on priority, then row, then column. -/
def entryLt (x y : EReal × Cell) : Prop :=
  x.1 < y.1 ∨ (x.1 = y.1 ∧ (x.2.1 < y.2.1 ∨ (x.2.1 = y.2.1 ∧ x.2.2 < y.2.2)))

open Classical in
/-- Pop the least entry of the open set (the value `heapq.heappop`
returns), together with the remaining entries. -/
noncomputable def popMin : List (EReal × Cell) → Option ((EReal × Cell) × List (EReal × Cell))
  | [] => none
  | x :: xs =>
    match popMin xs with
    | none => some (x, [])
    | some (m, rest) => if entryLt m x then some (m, x :: rest) else some (x, xs)

/-- The mutable state of the `theta_star` search loop. -/
structure SearchState where
  open_set : List (EReal × Cell)
  parent : List (Cell × Cell)
  g : List (Cell × EReal)

/-- The neighbour offsets (map.py lines 164-167). -/
def neighbors : List (ℤ × ℤ) :=
  [(0, 1), (0, -1), (1, 0), (-1, 0), (1, 1), (1, -1), (-1, 1), (-1, -1)]

open Classical in
/-- The body of the `for dr, dc in neighbors` loop (map.py lines 179-203):
skip out-of-bounds or blocked neighbours, default the neighbour's g-score to
infinity, then relax through the grandparent when it has line of sight to
the neighbour, falling back to the standard A* relaxation otherwise. -/
noncomputable def relaxNeighbor (grid : Grid) (goal cur : Cell)
    (st : SearchState) (d : ℤ × ℤ) : SearchState :=
  let rows : ℤ := grid.length
  let cols : ℤ := (grid.getD 0 []).length
  let n : Cell := (cur.1 + d.1, cur.2 + d.2)
  if ¬(0 ≤ n.1 ∧ n.1 < rows ∧ 0 ≤ n.2 ∧ n.2 < cols) then st
  else if cellAt grid n = 1 then st
  else
    let g1 := if hasA st.g n then st.g else updateA st.g n ⊤
    let par := (lookupA st.parent cur).getD cur
    if line_of_sight grid par n then
      let tentative := gval g1 par + ((distance par n : ℝ) : EReal)
      if tentative < gval g1 n then
        { open_set := st.open_set ++ [(tentative + ((heuristic n goal : ℝ) : EReal), n)]
          parent := updateA st.parent n par
          g := updateA g1 n tentative }
      else { st with g := g1 }
    else
      let tentative := gval g1 cur + ((distance cur n : ℝ) : EReal)
      if tentative < gval g1 n then
        { open_set := st.open_set ++ [(tentative + ((heuristic n goal : ℝ) : EReal), n)]
          parent := updateA st.parent n cur
          g := updateA g1 n tentative }
      else { st with g := g1 }

/-- Path reconstruction (map.py lines 173-177): walk parent pointers until a
cell is its own parent, prepending along the way; the accumulated list is
already the reversed Python list, so it is returned as is.  Fuel bounds the
chain; it exceeds the chain length on the runs evaluated here. -/
def reconstructPath (parent : List (Cell × Cell)) : ℕ → Cell → List Cell → List Cell
  | 0, _, acc => acc
  | fuel + 1, cur, acc =>
    let p := (lookupA parent cur).getD cur
    if p = cur then acc else reconstructPath parent fuel p (p :: acc)

open Classical in
/-- The `while open_set:` loop of `theta_star` (map.py lines 169-205):
pop the least entry; if it is the goal, reconstruct the path, else relax
all eight neighbours and continue.  The source loops until the heap
empties; the translation bounds the iterations by fuel, ample for every
run evaluated in this development. -/
noncomputable def thetaLoop (grid : Grid) (goal : Cell) : ℕ → SearchState → Option (List Cell)
  | 0, _ => none
  | fuel + 1, st =>
    match popMin st.open_set with
    | none => none
    | some ((_, current), rest) =>
      if current = goal then
        some (reconstructPath st.parent (st.parent.length + 1) current [current])
      else
        thetaLoop grid goal fuel
          (neighbors.foldl (relaxNeighbor grid goal current) { st with open_set := rest })

/-- `theta_star(grid, start, goal)` (map.py lines 95-205): the open set
starts as `[(0, start)]`, `parent[start] = start`, `g_score[start] = 0`. -/
noncomputable def theta_star (grid : Grid) (start goal : Cell) : Option (List Cell) :=
  thetaLoop grid goal ((grid.length * (grid.getD 0 []).length + 1) * 1000)
    ⟨[((0 : EReal), start)], [(start, start)], [(start, (0 : EReal))]⟩

/-- The 1-row grid `[[1, 0]]` used to exercise a Blocked start cell. -/
def tinyGrid : Grid := [[1, 0]]

/-- The 2-row grid whose top-right cell is blocked, used to exercise the
line-of-sight walk in both directions along the diagonal of a 2x3 box. -/
def losGrid : Grid := [[0, 0, 1], [0, 0, 0]]

/-! ## PoseTracker: the smoothing step of `update_visuals`
(map.py lines 458-477)

The position branch uses only the rationals 0.2 and 0.001, so it is
modelled exactly over `ℚ`; the heading branch wraps through π and is
modelled over `ℝ` (Python `x % m` on floats is `x - m * floor(x / m)` for a
positive modulus). -/

/-- The position half of the smoothing step (map.py lines 463-469): if
either axis residual exceeds 0.001, both coordinates move by 0.2 of their
delta toward the sensor position. -/
def update_visuals_xy (sx sy : ℚ) (p : ℚ × ℚ) : ℚ × ℚ :=
  let dx := sx - p.1
  let dy := sy - p.2
  if |dx| > 0.001 ∨ |dy| > 0.001 then (p.1 + dx * 0.2, p.2 + dy * 0.2) else p

/-- The heading normalisation (map.py line 474):
`(diff + pi) % (2 * pi) - pi`. -/
noncomputable def wrapAngle (d : ℝ) : ℝ :=
  (d + Real.pi) - (2 * Real.pi) * ⌊(d + Real.pi) / (2 * Real.pi)⌋ - Real.pi

open Classical in
/-- The heading half of the smoothing step (map.py lines 471-477). -/
noncomputable def update_visuals_theta (stheta th : ℝ) : ℝ :=
  let diff := wrapAngle (stheta - th)
  if |diff| > 0.001 then th + diff * 0.2 else th

/-- The displayed position over repeated smoothing steps with the sensor
held at (5, 5), starting from (0, 0). -/
def poseSeq : ℕ → ℚ × ℚ
  | 0 => (0, 0)
  | n + 1 => update_visuals_xy 5 5 (poseSeq n)

/-! ## NavigationController: `start_navigation` and `poll_position_update`
(map.py lines 541-579)

The controller state collects the fields of `StoreMap` the navigation logic
reads and writes.  Poses are reals; the pathfinder is passed in as a
function so facts about the controller hold for any pathfinder, `theta_star`
included.  A poll tick is modelled for a live widget (the
`winfo_exists` early-out concerns UI teardown only). -/

/-- `PATH_RECALC_INTERVAL_S` (map.py line 23). -/
def PATH_RECALC_INTERVAL_S : ℝ := 1.0

/-- Python `int()` on a float: truncation toward zero. -/
noncomputable def pyInt (x : ℝ) : ℤ := if 0 ≤ x then ⌊x⌋ else ⌈x⌉

/-- The navigation-relevant state of a `StoreMap` (map.py lines 229-248). -/
structure NavState where
  robotX : ℝ
  robotY : ℝ
  sensorX : ℝ
  sensorY : ℝ
  currentGoal : Option Cell
  remainingPath : List Cell
  lastPathTime : ℝ
  lastPathCell : Option Cell

/-- What one poll tick does: the updated state, whether the arrival callback
fired, whether the pathfinder was invoked, and whether the tick re-armed
the polling timer (`self.after(100, ...)`). -/
structure PollResult where
  state : NavState
  arrivalFired : Bool
  replanInvoked : Bool
  rescheduled : Bool

open Classical in
/-- `poll_position_update` (map.py lines 552-579) for a live widget:
with a goal set, declare arrival when the sensor pose is within 1.5 units
of the goal (firing the callback when one is installed, and not re-arming
the timer); otherwise replan when at least the recalc interval elapsed and
the sensor cell changed since the last pathfinder call, keeping the old
path when the pathfinder returns `None` or an empty path. -/
noncomputable def poll_position_update (pf : Cell → Cell → Option (List Cell))
    (onArrivalSet : Bool) (now : ℝ) (s : NavState) : PollResult :=
  match s.currentGoal with
  | none => ⟨s, false, false, true⟩
  | some goal =>
    let gy : ℝ := goal.1
    let gx : ℝ := goal.2
    let dist := Real.sqrt ((s.sensorX - gx) ^ 2 + (s.sensorY - gy) ^ 2)
    if dist < 1.5 then ⟨s, onArrivalSet, false, false⟩
    else
      let current_cell : Cell := (pyInt s.sensorY, pyInt s.sensorX)
      if PATH_RECALC_INTERVAL_S ≤ now - s.lastPathTime then
        if some current_cell ≠ s.lastPathCell then
          let s1 : NavState :=
            match pf current_cell goal with
            | some path => if path.isEmpty then s else { s with remainingPath := path.drop 1 }
            | none => s
          ⟨{ s1 with lastPathCell := some current_cell, lastPathTime := now },
            false, true, true⟩
        else ⟨{ s with lastPathTime := now }, false, false, true⟩
      else ⟨s, false, false, true⟩

open Classical in
/-- `start_navigation` (map.py lines 541-549): look the target aisle up in
the table; when present, compute a path from the current displayed-pose
cell; only a non-empty path sets the goal and the remaining path. -/
noncomputable def start_navigation (pf : Cell → Cell → Option (List Cell))
    (aisle_locations : List (String × AisleLoc)) (target_aisle : String)
    (s : NavState) : NavState :=
  match (aisle_locations.find? fun e => e.1 = target_aisle).map (·.2) with
  | none => s
  | some loc =>
    let goal := loc.goal
    let start : Cell := (pyInt s.robotY, pyInt s.robotX)
    match pf start goal with
    | none => s
    | some path =>
      if path.isEmpty then s
      else { s with currentGoal := some goal, remainingPath := path.drop 1 }

/-- The state before tick `n` of the polling loop, `none` once the loop has
stopped re-arming itself.  Each tick first takes the latest sensor sample
(the UDP listener writes `sensor_x`/`sensor_y` between ticks), then runs
`poll_position_update` at that tick's clock reading. -/
noncomputable def runStates (pf : Cell → Cell → Option (List Cell)) (onArrivalSet : Bool)
    (poses : ℕ → ℝ × ℝ) (times : ℕ → ℝ) (s0 : NavState) : ℕ → Option NavState
  | 0 => some s0
  | n + 1 =>
    match runStates pf onArrivalSet poses times s0 n with
    | none => none
    | some s =>
      let r := poll_position_update pf onArrivalSet (times n)
        { s with sensorX := (poses n).1, sensorY := (poses n).2 }
      if r.rescheduled then some r.state else none

/-- Whether the arrival callback fires at tick `n` of the polling loop. -/
noncomputable def firedAt (pf : Cell → Cell → Option (List Cell)) (onArrivalSet : Bool)
    (poses : ℕ → ℝ × ℝ) (times : ℕ → ℝ) (s0 : NavState) (n : ℕ) : Bool :=
  match runStates pf onArrivalSet poses times s0 n with
  | none => false
  | some s =>
    (poll_position_update pf onArrivalSet (times n)
      { s with sensorX := (poses n).1, sensorY := (poses n).2 }).arrivalFired

/-- How many of the first `n` ticks fired the arrival callback. -/
noncomputable def firedCount (pf : Cell → Cell → Option (List Cell)) (onArrivalSet : Bool)
    (poses : ℕ → ℝ × ℝ) (times : ℕ → ℝ) (s0 : NavState) (n : ℕ) : ℕ :=
  (List.range n).countP (firedAt pf onArrivalSet poses times s0)

/-! ## Helper lemmas -/

/-- The goal cell of an aisle record in closed integer form: Python
`int((top_y + bot_y) / 2)` is `y + 3` and `int(1.5 + 5 * i)` is
`1 + 5 * i`. -/
theorem aisleLocFor_goal (y i : ℕ) :
    (aisleLocFor y i).goal = ((y : ℤ) + 3, 1 + 5 * (i : ℤ)) := by
  unfold aisleLocFor SHELF_HEIGHT SHELF_SPACING_X
  refine Prod.ext ?_ ?_ <;> simp only
  · rw [Int.floor_eq_iff]
    push_cast
    constructor <;> nlinarith
  · rw [Int.floor_eq_iff]
    push_cast
    constructor <;> nlinarith

/-- The sixteen aisle goal cells in the order of the table. -/
theorem aisle_goals :
    aisle_locs.map (fun e => e.2.goal) =
      [(6, 1), (6, 6), (6, 11), (6, 16), (6, 21), (6, 26), (6, 31), (6, 36),
       (19, 1), (19, 6), (19, 11), (19, 16), (19, 21), (19, 26), (19, 31), (19, 36)] := by
  simp [aisle_locs, List.range_succ, ROW_1_Y, ROW_2_Y, SHELVES_PER_ROW,
    List.enum, List.enumFrom, aisleLocFor_goal]

/-- A free cell whose upper neighbour is free is reachable from that
neighbour, which is a distinct free cell. -/
theorem goal_entry_ok {p : Cell} (h1 : cellAt genGrid p = 0)
    (h2 : cellAt genGrid (p.1 - 1, p.2) = 0) :
    IsFree genGrid p ∧
      ∃ c0 : Cell, c0 ≠ p ∧ IsFree genGrid c0 ∧ Reachable genGrid c0 p := by
  have hne : ((p.1 - 1, p.2) : Cell) ≠ p := by
    intro h
    have h3 := congrArg Prod.fst h
    simp only at h3
    omega
  refine ⟨h1, (p.1 - 1, p.2), hne, h2,
    Relation.ReflTransGen.single ⟨h2, h1, hne, ?_, ?_⟩⟩
  · rw [show p.1 - (p.1 - 1) = 1 by ring]
    norm_num
  · simp

/-! ## C10 -/

/-- C10: `generate_map` is constant in both arguments: every pair of inputs
yields the identical result — the fixed 28-row by 39-column grid and the
aisle table keyed by the decimal strings "1" through "16". -/
theorem c10_generate_map_ignores_arguments :
    (∀ a b a' b' : ℤ, generate_map a b = generate_map a' b') ∧
    (generate_map 0 0).1.length = 28 ∧
    (∀ row ∈ (generate_map 0 0).1, row.length = 39) ∧
    (generate_map 0 0).2.1.map Prod.fst =
      ["1", "2", "3", "4", "5", "6", "7", "8",
       "9", "10", "11", "12", "13", "14", "15", "16"] := by
  refine ⟨fun a b a' b' => rfl, by decide, by decide, ?_⟩
  decide

/-! ## C9 -/

/-- C9: in the output of `generate_map`, every cell of the outer ring of the
grid is Blocked, and every aisle entry's goal cell is Free and reachable
from at least one other Free cell of the grid. -/
theorem c9_layout_invariants :
    (∀ r < grid_height, ∀ c < grid_width,
      (r = 0 ∨ r = grid_height - 1 ∨ c = 0 ∨ c = grid_width - 1) →
      cellAt (generate_map 16 2).1 ((r : ℤ), (c : ℤ)) = 1) ∧
    (∀ e ∈ (generate_map 16 2).2.1, IsFree (generate_map 16 2).1 e.2.goal ∧
      ∃ c0 : Cell, c0 ≠ e.2.goal ∧ IsFree (generate_map 16 2).1 c0 ∧
        Reachable (generate_map 16 2).1 c0 e.2.goal) := by
  constructor
  · decide
  · intro e he
    have hm : e.2.goal ∈ aisle_locs.map (fun x => x.2.goal) :=
      List.mem_map_of_mem _ he
    rw [aisle_goals] at hm
    simp only [List.mem_cons, List.not_mem_nil, or_false] at hm
    rcases hm with h | h | h | h | h | h | h | h | h | h | h | h | h | h | h | h <;>
      rw [h] <;> exact goal_entry_ok (by decide) (by decide)

/-- The first entry of the aisle table, as a membership fact. -/
theorem head_mem_aisle_locs : ("1", aisleLocFor ROW_1_Y 0) ∈ aisle_locs := by
  simp only [aisle_locs, List.range_succ, List.enum, List.enumFrom, List.flatMap,
    List.map, List.append_nil, List.nil_append, List.cons_append, List.flatten,
    List.mem_cons]
  exact Or.inl (Prod.ext (by decide) rfl)

/-- Witness for C9 at the top-left corner cell and the first aisle entry. -/
theorem c9_witness :
    cellAt (generate_map 16 2).1 ((0 : ℤ), (0 : ℤ)) = 1 ∧
    (IsFree (generate_map 16 2).1 (6, 1) ∧
      ∃ c0 : Cell, c0 ≠ ((6 : ℤ), (1 : ℤ)) ∧ IsFree (generate_map 16 2).1 c0 ∧
        Reachable (generate_map 16 2).1 c0 (6, 1)) := by
  have h2 := c9_layout_invariants.2 ("1", aisleLocFor ROW_1_Y 0) head_mem_aisle_locs
  rw [show (("1", aisleLocFor ROW_1_Y 0)).2.goal = ((6 : ℤ), (1 : ℤ)) by
    rw [aisleLocFor_goal]; norm_num [ROW_1_Y]] at h2
  exact ⟨c9_layout_invariants.1 0 (by decide) 0 (by decide) (Or.inl rfl), h2⟩

/-! ## C7 -/

/-- C7 counterexample: `generate_map` performs no input validation — called
with `aisle_count = 0` and `row_count = 0` it does not report any error but
returns exactly the full fixed layout it returns for valid inputs. -/
theorem c7_counterexample :
    generate_map 0 0 = generate_map 16 2 ∧
    (generate_map 0 0).2.2.1 = 39 ∧ (generate_map 0 0).2.2.2 = 28 :=
  ⟨rfl, rfl, rfl⟩

/-- C7 amended: the grid builder ignores (rather than rejects) its aisle
and row counts, and starting navigation with a target aisle id absent from
the aisle table leaves the engine idle — no goal set, no path computed, no
navigation state changed — though no error is reported either. -/
theorem c7_invalid_config_behavior :
    (∀ a b : ℤ, generate_map a b = generate_map 16 2) ∧
    (∀ (pf : Cell → Cell → Option (List Cell)) (target : String) (s : NavState),
      (∀ e ∈ aisle_locs, e.1 ≠ target) →
      start_navigation pf aisle_locs target s = s) := by
  refine ⟨fun a b => rfl, fun pf target s h => ?_⟩
  have hf : (aisle_locs.find? fun e => e.1 = target) = none := by
    rw [List.find?_eq_none]
    intro x hx
    simpa using h x hx
  simp [start_navigation, hf]

/-- Witness for C7: a concrete unknown aisle id ("0" is not a key of the
table) leaves a concrete state untouched, and two concrete invalid inputs
produce the standard layout. -/
theorem c7_witness :
    start_navigation (fun _ _ => none) aisle_locs "0" ⟨0, 0, 0, 0, none, [], 0, none⟩ =
      ⟨0, 0, 0, 0, none, [], 0, none⟩ ∧
    generate_map (-3) 0 = generate_map 16 2 :=
  ⟨c7_invalid_config_behavior.2 _ _ _ (by decide), c7_invalid_config_behavior.1 (-3) 0⟩

/-! ## C5: line-of-sight symmetry -/

/-- Unfolding `losWalkC` at fuel zero. -/
theorem losWalkC_zero (g : Grid) (b : Cell) (sr sc dr dc : ℤ) (r c : ℤ) (err : ℚ) :
    losWalkC g b sr sc dr dc 0 r c err =
      if c = b.2 then cellAt g b == 0 else false := by
  rw [losWalkC]

/-- Unfolding `losWalkC` at positive fuel. -/
theorem losWalkC_succ (g : Grid) (b : Cell) (sr sc dr dc : ℤ) (n : ℕ) (r c : ℤ)
    (err : ℚ) :
    losWalkC g b sr sc dr dc (n + 1) r c err =
      if c = b.2 then cellAt g b == 0
      else if cellAt g (r, c) = 1 then false
      else if err - dr < 0 then
        if cellAt g (r + sr, c) = 1 ∨ cellAt g (r, c + sc) = 1 then false
        else losWalkC g b sr sc dr dc n (r + sr) (c + sc) (err - dr + dc)
      else losWalkC g b sr sc dr dc n r (c + sc) (err - dr) := by
  rw [losWalkC]

/-- Unfolding `losWalkR` at fuel zero. -/
theorem losWalkR_zero (g : Grid) (b : Cell) (sr sc dr dc : ℤ) (r c : ℤ) (err : ℚ) :
    losWalkR g b sr sc dr dc 0 r c err =
      if r = b.1 then cellAt g b == 0 else false := by
  rw [losWalkR]

/-- Unfolding `losWalkR` at positive fuel. -/
theorem losWalkR_succ (g : Grid) (b : Cell) (sr sc dr dc : ℤ) (n : ℕ) (r c : ℤ)
    (err : ℚ) :
    losWalkR g b sr sc dr dc (n + 1) r c err =
      if r = b.1 then cellAt g b == 0
      else if cellAt g (r, c) = 1 then false
      else if err - dc < 0 then
        if cellAt g (r + sr, c) = 1 ∨ cellAt g (r, c + sc) = 1 then false
        else losWalkR g b sr sc dr dc n (r + sr) (c + sc) (err - dc + dr)
      else losWalkR g b sr sc dr dc n (r + sr) c (err - dc) := by
  rw [losWalkR]

/-- On a 0/1-valued grid every `cellAt` read is 0 or 1 (out-of-range reads
default to 1). -/
theorem cellAt_zero_or_one (g : Grid)
    (hbin : ∀ row ∈ g, ∀ v ∈ row, v = 0 ∨ v = 1) (p : Cell) :
    cellAt g p = 0 ∨ cellAt g p = 1 := by
  unfold cellAt
  split
  · exact Or.inr rfl
  · rcases Nat.lt_or_ge p.1.toNat g.length with hr | hr
    · have hrow : g.getD p.1.toNat [] ∈ g := by
        rw [List.getD_eq_getElem _ _ hr]
        exact List.getElem_mem hr
      rcases Nat.lt_or_ge p.2.toNat (g.getD p.1.toNat []).length with hc | hc
      · refine hbin _ hrow _ ?_
        rw [List.getD_eq_getElem _ _ hc]
        exact List.getElem_mem hc
      · rw [List.getD_eq_default _ _ hc]
        exact Or.inr rfl
    · rw [List.getD_eq_default _ _ hr]
      simp

/-- A fuel-indexed horizontal walk (row delta 0) scans exactly the cells
`c, c + sc, …` up to the target column and then checks the target cell. -/
theorem losWalkC_horiz (g : Grid) (b : Cell) (sr sc dcp : ℤ)
    (hsc : sc = 1 ∨ sc = -1) :
    ∀ (fuel : ℕ) (r c : ℤ) (err : ℚ), 0 ≤ err → b.2 = c + sc * fuel →
      (losWalkC g b sr sc 0 dcp fuel r c err = true ↔
        ((∀ k : ℕ, k < fuel → cellAt g (r, c + sc * k) ≠ 1) ∧ cellAt g b = 0)) := by
  intro fuel
  induction fuel with
  | zero =>
    intro r c err herr hb
    have hc : c = b.2 := by simpa using hb.symm
    rw [losWalkC_zero, if_pos hc]
    simp [beq_iff_eq]
  | succ n ih =>
    intro r c err herr hb
    have hcne : ¬(c = b.2) := by
      rcases hsc with h1 | h1 <;> subst h1 <;> push_cast at hb <;> omega
    rw [losWalkC_succ, if_neg hcne]
    by_cases hblock : cellAt g (r, c) = 1
    · rw [if_pos hblock]
      simp only [Bool.false_eq_true, false_iff, not_and]
      intro hall
      exact absurd hblock (by simpa using hall 0 n.succ_pos)
    · rw [if_neg hblock]
      have hnn : ¬(err - ((0 : ℤ) : ℚ) < 0) := by simpa using herr
      rw [if_neg hnn]
      have hb' : b.2 = (c + sc) + sc * n := by push_cast at hb ⊢; linarith [hb]
      rw [ih r (c + sc) (err - ((0 : ℤ) : ℚ)) (by simpa using herr) hb']
      constructor
      · rintro ⟨hall, hfin⟩
        refine ⟨?_, hfin⟩
        intro k hk
        cases k with
        | zero => simpa using hblock
        | succ j =>
          have hx : c + sc * ((j + 1 : ℕ) : ℤ) = (c + sc) + sc * (j : ℤ) := by
            push_cast
            ring
          rw [hx]
          exact hall j (by omega)
      · rintro ⟨hall, hfin⟩
        refine ⟨?_, hfin⟩
        intro j hj
        have hx : (c + sc) + sc * (j : ℤ) = c + sc * ((j + 1 : ℕ) : ℤ) := by
          push_cast
          ring
        rw [hx]
        exact hall (j + 1) (by omega)

/-- A fuel-indexed vertical walk (column delta 0) scans exactly the cells
`r, r + sr, …` up to the target row and then checks the target cell. -/
theorem losWalkR_vert (g : Grid) (b : Cell) (sr sc drp : ℤ)
    (hsr : sr = 1 ∨ sr = -1) :
    ∀ (fuel : ℕ) (r c : ℤ) (err : ℚ), 0 ≤ err → b.1 = r + sr * fuel →
      (losWalkR g b sr sc drp 0 fuel r c err = true ↔
        ((∀ k : ℕ, k < fuel → cellAt g (r + sr * k, c) ≠ 1) ∧ cellAt g b = 0)) := by
  intro fuel
  induction fuel with
  | zero =>
    intro r c err herr hb
    have hc : r = b.1 := by simpa using hb.symm
    rw [losWalkR_zero, if_pos hc]
    simp [beq_iff_eq]
  | succ n ih =>
    intro r c err herr hb
    have hcne : ¬(r = b.1) := by
      rcases hsr with h1 | h1 <;> subst h1 <;> push_cast at hb <;> omega
    rw [losWalkR_succ, if_neg hcne]
    by_cases hblock : cellAt g (r, c) = 1
    · rw [if_pos hblock]
      simp only [Bool.false_eq_true, false_iff, not_and]
      intro hall
      exact absurd hblock (by simpa using hall 0 n.succ_pos)
    · rw [if_neg hblock]
      have hnn : ¬(err - ((0 : ℤ) : ℚ) < 0) := by simpa using herr
      rw [if_neg hnn]
      have hb' : b.1 = (r + sr) + sr * n := by push_cast at hb ⊢; linarith [hb]
      rw [ih (r + sr) c (err - ((0 : ℤ) : ℚ)) (by simpa using herr) hb']
      constructor
      · rintro ⟨hall, hfin⟩
        refine ⟨?_, hfin⟩
        intro k hk
        cases k with
        | zero => simpa using hblock
        | succ j =>
          have hx : r + sr * ((j + 1 : ℕ) : ℤ) = (r + sr) + sr * (j : ℤ) := by
            push_cast
            ring
          rw [hx]
          exact hall j (by omega)
      · rintro ⟨hall, hfin⟩
        refine ⟨?_, hfin⟩
        intro j hj
        have hx : (r + sr) + sr * (j : ℤ) = r + sr * ((j + 1 : ℕ) : ℤ) := by
          push_cast
          ring
        rw [hx]
        exact hall (j + 1) (by omega)

/-- Line of sight along a single row is exactly freeness of every cell in
the closed column interval. -/
theorem los_horiz_iff (g : Grid) (r c0 c1 : ℤ)
    (hbin : ∀ row ∈ g, ∀ v ∈ row, v = 0 ∨ v = 1) (hne : c0 ≠ c1) :
    (line_of_sight g (r, c0) (r, c1) = true ↔
      ∀ x : ℤ, min c0 c1 ≤ x → x ≤ max c0 c1 → cellAt g (r, x) = 0) := by
  by_cases hends : cellAt g (r, c0) = 1 ∨ cellAt g (r, c1) = 1
  · rw [line_of_sight, if_pos hends]
    constructor
    · intro hF
      exact absurd hF (by simp)
    · intro hall
      rcases hends with h | h
      · have h0 := hall c0 (min_le_left _ _) (le_max_left _ _)
        omega
      · have h0 := hall c1 (min_le_right _ _) (le_max_right _ _)
        omega
  · rw [line_of_sight, if_neg hends]
    push_neg at hends
    dsimp only
    rw [sub_self r, abs_zero]
    have hdc : (0 : ℤ) < |c1 - c0| := abs_pos.mpr (sub_ne_zero.mpr (Ne.symm hne))
    rw [if_pos hdc]
    have herr : (0 : ℚ) ≤ ((|c1 - c0| : ℤ) : ℚ) / 2 := by positivity
    rcases lt_or_gt_of_ne hne with hlt | hgt
    · have habs : |c1 - c0| = c1 - c0 := abs_of_pos (by omega)
      have hstep : (if (0 : ℤ) < c1 - c0 then (1 : ℤ) else -1) = 1 := if_pos (by omega)
      rw [habs, hstep,
        losWalkC_horiz g (r, c1) _ 1 _ (Or.inl rfl) (c1 - c0).toNat r c0 _
          (by rw [← habs]; exact herr) (by simp; omega)]
      constructor
      · rintro ⟨hall, hfin⟩ x hx1 hx2
        rw [min_eq_left (by omega)] at hx1
        rw [max_eq_right (by omega)] at hx2
        by_cases hx : x = c1
        · subst hx; exact hfin
        · have hk := hall (x - c0).toNat (by omega)
          have hco : c0 + 1 * (((x - c0).toNat : ℕ) : ℤ) = x := by omega
          rw [hco] at hk
          rcases cellAt_zero_or_one g hbin (r, x) with h0 | h1
          · exact h0
          · exact absurd h1 hk
      · intro hall
        refine ⟨fun k hk => ?_, ?_⟩
        · have h0 := hall (c0 + 1 * (k : ℤ)) (by omega) (by omega)
          omega
        · exact hall c1 (by omega) (by omega)
    · have habs : |c1 - c0| = c0 - c1 := by rw [abs_of_neg (by omega)]; ring
      have hstep : (if (0 : ℤ) < c1 - c0 then (1 : ℤ) else -1) = -1 := if_neg (by omega)
      rw [habs, hstep,
        losWalkC_horiz g (r, c1) _ (-1) _ (Or.inr rfl) (c0 - c1).toNat r c0 _
          (by rw [← habs]; exact herr) (by simp; omega)]
      constructor
      · rintro ⟨hall, hfin⟩ x hx1 hx2
        rw [min_eq_right (by omega)] at hx1
        rw [max_eq_left (by omega)] at hx2
        by_cases hx : x = c1
        · subst hx; exact hfin
        · have hk := hall (c0 - x).toNat (by omega)
          have hco : c0 + (-1) * (((c0 - x).toNat : ℕ) : ℤ) = x := by omega
          rw [hco] at hk
          rcases cellAt_zero_or_one g hbin (r, x) with h0 | h1
          · exact h0
          · exact absurd h1 hk
      · intro hall
        refine ⟨fun k hk => ?_, ?_⟩
        · have h0 := hall (c0 + (-1) * (k : ℤ)) (by omega) (by omega)
          omega
        · exact hall c1 (by omega) (by omega)

/-- Line of sight along a single column is exactly freeness of every cell
in the closed row interval. -/
theorem los_vert_iff (g : Grid) (c r0 r1 : ℤ)
    (hbin : ∀ row ∈ g, ∀ v ∈ row, v = 0 ∨ v = 1) (hne : r0 ≠ r1) :
    (line_of_sight g (r0, c) (r1, c) = true ↔
      ∀ x : ℤ, min r0 r1 ≤ x → x ≤ max r0 r1 → cellAt g (x, c) = 0) := by
  by_cases hends : cellAt g (r0, c) = 1 ∨ cellAt g (r1, c) = 1
  · rw [line_of_sight, if_pos hends]
    constructor
    · intro hF
      exact absurd hF (by simp)
    · intro hall
      rcases hends with h | h
      · have h0 := hall r0 (min_le_left _ _) (le_max_left _ _)
        omega
      · have h0 := hall r1 (min_le_right _ _) (le_max_right _ _)
        omega
  · rw [line_of_sight, if_neg hends]
    push_neg at hends
    dsimp only
    rw [sub_self c, abs_zero]
    have hdr : ¬(|r1 - r0| < (0 : ℤ)) := not_lt.mpr (abs_nonneg _)
    rw [if_neg hdr]
    have herr : (0 : ℚ) ≤ ((|r1 - r0| : ℤ) : ℚ) / 2 := by positivity
    rcases lt_or_gt_of_ne hne with hlt | hgt
    · have habs : |r1 - r0| = r1 - r0 := abs_of_pos (by omega)
      have hstep : (if (0 : ℤ) < r1 - r0 then (1 : ℤ) else -1) = 1 := if_pos (by omega)
      rw [habs, hstep,
        losWalkR_vert g (r1, c) 1 _ _ (Or.inl rfl) (r1 - r0).toNat r0 c _
          (by rw [← habs]; exact herr) (by simp; omega)]
      constructor
      · rintro ⟨hall, hfin⟩ x hx1 hx2
        rw [min_eq_left (by omega)] at hx1
        rw [max_eq_right (by omega)] at hx2
        by_cases hx : x = r1
        · subst hx; exact hfin
        · have hk := hall (x - r0).toNat (by omega)
          have hco : r0 + 1 * (((x - r0).toNat : ℕ) : ℤ) = x := by omega
          rw [hco] at hk
          rcases cellAt_zero_or_one g hbin (x, c) with h0 | h1
          · exact h0
          · exact absurd h1 hk
      · intro hall
        refine ⟨fun k hk => ?_, ?_⟩
        · have h0 := hall (r0 + 1 * (k : ℤ)) (by omega) (by omega)
          omega
        · exact hall r1 (by omega) (by omega)
    · have habs : |r1 - r0| = r0 - r1 := by rw [abs_of_neg (by omega)]; ring
      have hstep : (if (0 : ℤ) < r1 - r0 then (1 : ℤ) else -1) = -1 := if_neg (by omega)
      rw [habs, hstep,
        losWalkR_vert g (r1, c) (-1) _ _ (Or.inr rfl) (r0 - r1).toNat r0 c _
          (by rw [← habs]; exact herr) (by simp; omega)]
      constructor
      · rintro ⟨hall, hfin⟩ x hx1 hx2
        rw [min_eq_right (by omega)] at hx1
        rw [max_eq_left (by omega)] at hx2
        by_cases hx : x = r1
        · subst hx; exact hfin
        · have hk := hall (r0 - x).toNat (by omega)
          have hco : r0 + (-1) * (((r0 - x).toNat : ℕ) : ℤ) = x := by omega
          rw [hco] at hk
          rcases cellAt_zero_or_one g hbin (x, c) with h0 | h1
          · exact h0
          · exact absurd h1 hk
      · intro hall
        refine ⟨fun k hk => ?_, ?_⟩
        · have h0 := hall (r0 + (-1) * (k : ℤ)) (by omega) (by omega)
          omega
        · exact hall r1 (by omega) (by omega)

/-- C5 counterexample: on the 2x3 grid with only the top-right cell
blocked, line of sight from (0,0) to (1,2) is rejected (the corner check
sees the blocked cell) but accepted in the reverse direction, so the
claimed symmetry fails. -/
theorem c5_counterexample :
    line_of_sight losGrid (0, 0) (1, 2) = false ∧
    line_of_sight losGrid (1, 2) (0, 0) = true := by
  constructor
  · norm_num [line_of_sight, losWalkC, losGrid, cellAt]
    decide
  · norm_num [line_of_sight, losWalkC, losGrid, cellAt]
    decide

/-- C5 amended: on 0/1-valued grids the line-of-sight predicate is
symmetric for axis-aligned pairs (cells sharing a row or a column); for
general diagonal pairs it can differ between directions. -/
theorem c5_line_of_sight_axis_symmetric (g : Grid) (a b : Cell)
    (hbin : ∀ row ∈ g, ∀ v ∈ row, v = 0 ∨ v = 1)
    (haxis : a.1 = b.1 ∨ a.2 = b.2) :
    line_of_sight g a b = line_of_sight g b a := by
  obtain ⟨a1, a2⟩ := a
  obtain ⟨b1, b2⟩ := b
  simp only at haxis
  rcases haxis with h | h
  · subst h
    by_cases hc : a2 = b2
    · subst hc; rfl
    · rw [Bool.eq_iff_iff, los_horiz_iff g a1 a2 b2 hbin hc,
        los_horiz_iff g a1 b2 a2 hbin (Ne.symm hc), min_comm b2 a2, max_comm b2 a2]
  · subst h
    by_cases hr : a1 = b1
    · subst hr; rfl
    · rw [Bool.eq_iff_iff, los_vert_iff g a2 a1 b1 hbin hr,
        los_vert_iff g a2 b1 a1 hbin (Ne.symm hr), min_comm b1 a1, max_comm b1 a1]

/-- Witness for C5 on a concrete axis-aligned pair of the counterexample
grid. -/
theorem c5_witness :
    line_of_sight losGrid (1, 0) (1, 2) = line_of_sight losGrid (1, 2) (1, 0) :=
  c5_line_of_sight_axis_symmetric losGrid (1, 0) (1, 2) (by decide) (Or.inl rfl)

/-! ## C6: pose smoothing -/

/-- The smoothing position step without lets. -/
theorem update_visuals_xy_def (sx sy : ℚ) (p : ℚ × ℚ) :
    update_visuals_xy sx sy p =
      if |sx - p.1| > 0.001 ∨ |sy - p.2| > 0.001
      then (p.1 + (sx - p.1) * 0.2, p.2 + (sy - p.2) * 0.2) else p := rfl

/-- The smoothing heading step without lets. -/
theorem update_visuals_theta_def (stheta th : ℝ) :
    update_visuals_theta stheta th =
      if |wrapAngle (stheta - th)| > 0.001
      then th + wrapAngle (stheta - th) * 0.2 else th := rfl

/-- The wrapped angular delta always lands in the interval [-π, π). -/
theorem wrapAngle_bounds (d : ℝ) : -Real.pi ≤ wrapAngle d ∧ wrapAngle d < Real.pi := by
  have hm : (0 : ℝ) < 2 * Real.pi := by positivity
  have hfr : wrapAngle d =
      2 * Real.pi * Int.fract ((d + Real.pi) / (2 * Real.pi)) - Real.pi := by
    unfold wrapAngle Int.fract
    field_simp
  constructor
  · rw [hfr]
    have h0 : 0 ≤ Int.fract ((d + Real.pi) / (2 * Real.pi)) := Int.fract_nonneg _
    nlinarith
  · rw [hfr]
    have h1 : Int.fract ((d + Real.pi) / (2 * Real.pi)) < 1 := Int.fract_lt_one _
    nlinarith

/-- Wrapping a zero angular delta yields zero. -/
theorem wrapAngle_zero : wrapAngle 0 = 0 := by
  unfold wrapAngle
  have h2 : (0 + Real.pi) / (2 * Real.pi) = 1 / 2 := by
    rw [zero_add]
    rw [div_eq_iff (by positivity)]
    ring
  rw [h2, show ⌊(1 / 2 : ℝ)⌋ = 0 from by
    rw [Int.floor_eq_zero_iff]
    constructor <;> norm_num]
  push_cast
  ring

/-- The smoothed displayed position keeps a positive residual toward the
fixed sensor position (5,5) and both coordinates stay equal. -/
theorem poseSeq_props (n : ℕ) : 0 < 5 - (poseSeq n).1 ∧ (poseSeq n).1 = (poseSeq n).2 := by
  induction n with
  | zero => norm_num [poseSeq]
  | succ m ih =>
    obtain ⟨hpos, heq⟩ := ih
    rw [show poseSeq (m + 1) = update_visuals_xy 5 5 (poseSeq m) from rfl,
      update_visuals_xy_def]
    by_cases hgate : |5 - (poseSeq m).1| > 0.001 ∨ |5 - (poseSeq m).2| > 0.001
    · rw [if_pos hgate]
      constructor
      · dsimp only
        linarith
      · dsimp only
        rw [heq]
    · rw [if_neg hgate]
      exact ⟨hpos, heq⟩

/-- The residual shrinks geometrically until it falls under the stop
threshold, after which it is at most the threshold. -/
theorem poseSeq_bound (n : ℕ) :
    5 - (poseSeq n).1 ≤ max (5 * (4 / 5) ^ n) (1 / 1000) := by
  induction n with
  | zero =>
    norm_num [poseSeq]
  | succ m ih =>
    rw [show poseSeq (m + 1) = update_visuals_xy 5 5 (poseSeq m) from rfl,
      update_visuals_xy_def]
    by_cases hgate : |5 - (poseSeq m).1| > 0.001 ∨ |5 - (poseSeq m).2| > 0.001
    · rw [if_pos hgate]
      dsimp only
      have h1 : 5 - ((poseSeq m).1 + (5 - (poseSeq m).1) * 0.2) =
          (5 - (poseSeq m).1) * (4 / 5) := by ring
      rw [h1]
      calc (5 - (poseSeq m).1) * (4 / 5)
          ≤ max (5 * (4 / 5) ^ m) (1 / 1000) * (4 / 5) :=
            mul_le_mul_of_nonneg_right ih (by norm_num)
        _ ≤ max (5 * (4 / 5) ^ (m + 1)) (1 / 1000) := by
            rw [max_mul_of_nonneg _ _ (by norm_num : (0 : ℚ) ≤ 4 / 5)]
            apply max_le_max
            · exact le_of_eq (by ring)
            · norm_num
    · rw [if_neg hgate]
      push_neg at hgate
      have h2 : 5 - (poseSeq m).1 ≤ 1 / 1000 := by
        have h3 := le_trans (le_abs_self (5 - (poseSeq m).1)) hgate.1
        linarith [h3]
      exact le_trans h2 (le_max_right _ _)

/-- C6: each smoothing step moves each displayed coordinate by the fraction
0.2 of its remaining delta whenever that residual exceeds the 0.001 stop
threshold, and smooths the heading the same way after wrapping the angular
delta into [-π, π]; with the sensor pose fixed at (5,5,0) and the displayed
pose starting at (0,0,0), the residual never changes sign (no overshoot)
and the displayed pose comes within 1/100 of (5,5,0) within 50 steps. -/
theorem c6_smoothing_step_and_convergence :
    (∀ (sx sy : ℚ) (p : ℚ × ℚ), |sx - p.1| > 0.001 →
        (update_visuals_xy sx sy p).1 = p.1 + (sx - p.1) * 0.2) ∧
    (∀ (sx sy : ℚ) (p : ℚ × ℚ), |sy - p.2| > 0.001 →
        (update_visuals_xy sx sy p).2 = p.2 + (sy - p.2) * 0.2) ∧
    (∀ s t : ℝ, -Real.pi ≤ wrapAngle (s - t) ∧ wrapAngle (s - t) ≤ Real.pi) ∧
    (∀ s t : ℝ, |wrapAngle (s - t)| > 0.001 →
        update_visuals_theta s t = t + wrapAngle (s - t) * 0.2) ∧
    (∀ n : ℕ, 0 < 5 - (poseSeq n).1 ∧
        5 - (poseSeq (n + 1)).1 ≤ 5 - (poseSeq n).1 ∧
        (poseSeq n).1 = (poseSeq n).2) ∧
    |5 - (poseSeq 50).1| < 1 / 100 ∧
    update_visuals_theta 0 0 = 0 := by
  refine ⟨?_, ?_, ?_, ?_, ?_, ?_, ?_⟩
  · intro sx sy p h
    rw [update_visuals_xy_def, if_pos (Or.inl h)]
  · intro sx sy p h
    rw [update_visuals_xy_def, if_pos (Or.inr h)]
  · intro s t
    exact ⟨(wrapAngle_bounds (s - t)).1, le_of_lt (wrapAngle_bounds (s - t)).2⟩
  · intro s t h
    rw [update_visuals_theta_def, if_pos h]
  · intro n
    refine ⟨(poseSeq_props n).1, ?_, (poseSeq_props n).2⟩
    obtain ⟨hpos, heq⟩ := poseSeq_props n
    rw [show poseSeq (n + 1) = update_visuals_xy 5 5 (poseSeq n) from rfl,
      update_visuals_xy_def]
    by_cases hgate : |5 - (poseSeq n).1| > 0.001 ∨ |5 - (poseSeq n).2| > 0.001
    · rw [if_pos hgate]
      dsimp only
      linarith
    · rw [if_neg hgate]
  · have hpos := (poseSeq_props 50).1
    rw [abs_of_pos hpos]
    refine lt_of_le_of_lt (poseSeq_bound 50) ?_
    rw [max_lt_iff]
    constructor <;> norm_num
  · rw [update_visuals_theta_def, sub_zero, wrapAngle_zero]
    norm_num

/-- Witness for C6: one concrete smoothing step from the origin toward the
sensor position (5,5), and the heading step at a zero delta. -/
theorem c6_witness :
    (update_visuals_xy 5 5 (0, 0)).1 = 0 + (5 - 0) * 0.2 ∧
    update_visuals_theta 0 0 = 0 :=
  ⟨c6_smoothing_step_and_convergence.1 5 5 (0, 0) (by norm_num),
   c6_smoothing_step_and_convergence.2.2.2.2.2.2⟩

/-! ## Controller tick lemmas -/

/-- A poll tick without an active goal only re-arms the timer. -/
theorem poll_no_goal (pf : Cell → Cell → Option (List Cell)) (a : Bool) (now : ℝ)
    (s : NavState) (hg : s.currentGoal = none) :
    poll_position_update pf a now s = ⟨s, false, false, true⟩ := by
  unfold poll_position_update
  rw [hg]

/-- A poll tick with an active goal, fully unfolded. -/
theorem poll_def (pf : Cell → Cell → Option (List Cell)) (a : Bool) (now : ℝ)
    (s : NavState) (goal : Cell) (hg : s.currentGoal = some goal) :
    poll_position_update pf a now s =
      if Real.sqrt ((s.sensorX - (goal.2 : ℝ)) ^ 2 + (s.sensorY - (goal.1 : ℝ)) ^ 2) < 1.5
      then ⟨s, a, false, false⟩
      else if PATH_RECALC_INTERVAL_S ≤ now - s.lastPathTime then
        if some ((pyInt s.sensorY, pyInt s.sensorX) : Cell) ≠ s.lastPathCell then
          ⟨{ (match pf (pyInt s.sensorY, pyInt s.sensorX) goal with
              | some path => if path.isEmpty then s
                             else { s with remainingPath := path.drop 1 }
              | none => s) with
              lastPathCell := some (pyInt s.sensorY, pyInt s.sensorX),
              lastPathTime := now }, false, true, true⟩
        else ⟨{ s with lastPathTime := now }, false, false, true⟩
      else ⟨s, false, false, true⟩ := by
  unfold poll_position_update
  rw [hg]

/-- A poll tick never changes the current goal. -/
theorem poll_goal_invariant (pf : Cell → Cell → Option (List Cell)) (a : Bool)
    (now : ℝ) (s : NavState) :
    (poll_position_update pf a now s).state.currentGoal = s.currentGoal := by
  cases hg : s.currentGoal with
  | none =>
    rw [poll_no_goal pf a now s hg]
    exact hg
  | some goal =>
    rw [poll_def pf a now s goal hg]
    split_ifs
    · exact hg
    · cases hpf : pf (pyInt s.sensorY, pyInt s.sensorX) goal with
      | none =>
        simp only [hpf]
        exact hg
      | some path =>
        by_cases hp : path.isEmpty
        · simp only [hpf, if_pos hp]
          exact hg
        · simp only [hpf, if_neg hp]
          exact hg
    · exact hg
    · exact hg

/-- When a poll tick invokes the pathfinder, it stamps the tick's clock
reading and the sensor cell into the replan bookkeeping. -/
theorem poll_invoked_updates (pf : Cell → Cell → Option (List Cell)) (a : Bool)
    (now : ℝ) (s : NavState)
    (h : (poll_position_update pf a now s).replanInvoked = true) :
    (poll_position_update pf a now s).state.lastPathTime = now ∧
    (poll_position_update pf a now s).state.lastPathCell =
      some (pyInt s.sensorY, pyInt s.sensorX) := by
  cases hg : s.currentGoal with
  | none => rw [poll_no_goal pf a now s hg] at h ⊢; cases h
  | some goal =>
    rw [poll_def pf a now s goal hg] at h ⊢
    split_ifs at h ⊢ with h1 h2 h3
    exact ⟨rfl, rfl⟩

/-- What a poll tick requires before it invokes the pathfinder. -/
theorem poll_invoked_gating (pf : Cell → Cell → Option (List Cell)) (a : Bool)
    (now : ℝ) (s : NavState)
    (h : (poll_position_update pf a now s).replanInvoked = true) :
    PATH_RECALC_INTERVAL_S ≤ now - s.lastPathTime ∧
    some ((pyInt s.sensorY, pyInt s.sensorX) : Cell) ≠ s.lastPathCell := by
  cases hg : s.currentGoal with
  | none => rw [poll_no_goal pf a now s hg] at h; cases h
  | some goal =>
    rw [poll_def pf a now s goal hg] at h
    split_ifs at h with h1 h2 h3
    exact ⟨h2, h3⟩

/-! ## C2: arrival condition -/

/-- C2 counterexample: with the goal at cell (5,5), a raw sensor pose right
on the goal and the displayed (smoothed) pose still at the origin, the tick
declares arrival although the displayed pose is far outside the 1.5-unit
threshold — the arrival test reads the sensor pose, not the displayed
pose. -/
theorem c2_counterexample :
    (poll_position_update (fun _ _ => none) true 0
        ⟨0, 0, 5, 5, some (5, 5), [], 0, none⟩).arrivalFired = true ∧
    ¬(Real.sqrt ((((⟨0, 0, 5, 5, some (5, 5), [], 0, none⟩ : NavState).robotX -
        ((5 : ℤ) : ℝ)) ^ 2 +
        ((⟨0, 0, 5, 5, some (5, 5), [], 0, none⟩ : NavState).robotY -
        ((5 : ℤ) : ℝ)) ^ 2)) < 1.5) := by
  constructor
  · rw [poll_def (fun _ _ => none) true 0 _ (5, 5) rfl]
    rw [if_pos (by norm_num)]
  · show ¬(Real.sqrt (((0 : ℝ) - 5) ^ 2 + ((0 : ℝ) - 5) ^ 2) < 1.5)
    rw [not_lt, show ((0 : ℝ) - 5) ^ 2 + ((0 : ℝ) - 5) ^ 2 = 50 by norm_num]
    rw [show (1.5 : ℝ) = Real.sqrt (1.5 ^ 2) by
      rw [Real.sqrt_sq]; norm_num]
    apply Real.sqrt_le_sqrt
    norm_num

/-- C2 amended: while a goal is set, a poll tick declares arrival — firing
the installed callback and stopping the polling loop — exactly when the
Euclidean distance between the latest raw sensor pose and the goal cell is
below 1.5 grid units. -/
theorem c2_arrival_tracks_sensor_pose (pf : Cell → Cell → Option (List Cell))
    (now : ℝ) (s : NavState) (goal : Cell) (hg : s.currentGoal = some goal) :
    ((poll_position_update pf true now s).arrivalFired = true ↔
      Real.sqrt ((s.sensorX - (goal.2 : ℝ)) ^ 2 + (s.sensorY - (goal.1 : ℝ)) ^ 2) < 1.5) ∧
    ((poll_position_update pf true now s).rescheduled = false ↔
      Real.sqrt ((s.sensorX - (goal.2 : ℝ)) ^ 2 + (s.sensorY - (goal.1 : ℝ)) ^ 2) < 1.5) := by
  rw [poll_def pf true now s goal hg]
  by_cases hd :
      Real.sqrt ((s.sensorX - (goal.2 : ℝ)) ^ 2 + (s.sensorY - (goal.1 : ℝ)) ^ 2) < 1.5
  · rw [if_pos hd]
    simp [hd]
  · rw [if_neg hd]
    split_ifs <;> simp [hd]

/-- Witness for C2 at a concrete state whose sensor pose sits on the
goal. -/
theorem c2_witness :
    ((poll_position_update (fun _ _ => none) true 0
        ⟨0, 0, 5, 5, some (5, 5), [], 0, none⟩).arrivalFired = true ↔
      Real.sqrt (((5 : ℝ) - ((5 : ℤ) : ℝ)) ^ 2 + ((5 : ℝ) - ((5 : ℤ) : ℝ)) ^ 2) < 1.5) ∧
    ((poll_position_update (fun _ _ => none) true 0
        ⟨0, 0, 5, 5, some (5, 5), [], 0, none⟩).rescheduled = false ↔
      Real.sqrt (((5 : ℝ) - ((5 : ℤ) : ℝ)) ^ 2 + ((5 : ℝ) - ((5 : ℤ) : ℝ)) ^ 2) < 1.5) :=
  c2_arrival_tracks_sensor_pose (fun _ _ => none) 0
    ⟨0, 0, 5, 5, some (5, 5), [], 0, none⟩ (5, 5) rfl

/-! ## C4: replan throttling -/

/-- C4: a poll tick invokes the pathfinder only when at least the 1.0 s
recalc interval has elapsed since the last pathfinder invocation and the
sensor cell differs from the cell recorded at that invocation; hence two
ticks within the interval with the agent in the same cell never invoke the
pathfinder twice. -/
theorem c4_replan_throttling :
    (∀ (pf : Cell → Cell → Option (List Cell)) (a : Bool) (now : ℝ) (s : NavState),
      (poll_position_update pf a now s).replanInvoked = true →
        PATH_RECALC_INTERVAL_S ≤ now - s.lastPathTime ∧
        some ((pyInt s.sensorY, pyInt s.sensorX) : Cell) ≠ s.lastPathCell) ∧
    (∀ (pf : Cell → Cell → Option (List Cell)) (a : Bool) (now₁ now₂ sx₂ sy₂ : ℝ)
        (s : NavState),
      now₂ - now₁ < PATH_RECALC_INTERVAL_S →
      ((pyInt sy₂, pyInt sx₂) : Cell) = (pyInt s.sensorY, pyInt s.sensorX) →
      ¬((poll_position_update pf a now₁ s).replanInvoked = true ∧
        (poll_position_update pf a now₂
          { (poll_position_update pf a now₁ s).state with
            sensorX := sx₂, sensorY := sy₂ }).replanInvoked = true)) := by
  refine ⟨poll_invoked_gating, ?_⟩
  rintro pf a now₁ now₂ sx₂ sy₂ s hlt _hcell ⟨h1, h2⟩
  have ht1 := (poll_invoked_updates pf a now₁ s h1).1
  have ht2 := (poll_invoked_gating pf a now₂ _ h2).1
  simp only at ht2
  rw [ht1] at ht2
  unfold PATH_RECALC_INTERVAL_S at hlt ht2
  linarith

/-- Witness for C4: a concrete invoking tick satisfies both gating
conditions. -/
theorem c4_witness :
    PATH_RECALC_INTERVAL_S ≤ 5 - (0 : ℝ) ∧
    some ((pyInt 10, pyInt 10) : Cell) ≠ (none : Option Cell) :=
  c4_replan_throttling.1 (fun _ _ => none) true 5
    ⟨0, 0, 10, 10, some (0, 0), [], 0, none⟩
    (by
      rw [poll_def (fun _ _ => none) true 5 _ (0, 0) rfl]
      rw [if_neg (by
        rw [not_lt, show ((10 : ℝ) - ((0 : ℤ) : ℝ)) ^ 2 + ((10 : ℝ) - ((0 : ℤ) : ℝ)) ^ 2 =
          200 by norm_num]
        rw [show (1.5 : ℝ) = Real.sqrt (1.5 ^ 2) by rw [Real.sqrt_sq]; norm_num]
        apply Real.sqrt_le_sqrt
        norm_num)]
      rw [if_pos (by unfold PATH_RECALC_INTERVAL_S; norm_num)]
      rw [if_pos (by simp)])

/-! ## C8: NotFound replan result -/

/-- C8: when the pathfinder returns the no-path sentinel for the cell the
tick would replan from, the tick leaves `remaining_path` untouched, no
exception propagates (the tick is a total function), and an invoking tick
still stamps the replan bookkeeping and re-arms the timer so that
replanning is retried at the next eligible tick. -/
theorem c8_notfound_keeps_path (pf : Cell → Cell → Option (List Cell)) (a : Bool)
    (now : ℝ) (s : NavState) (goal : Cell) (hg : s.currentGoal = some goal)
    (hpf : pf (pyInt s.sensorY, pyInt s.sensorX) goal = none) :
    (poll_position_update pf a now s).state.remainingPath = s.remainingPath ∧
    ((poll_position_update pf a now s).replanInvoked = true →
      (poll_position_update pf a now s).state.lastPathTime = now ∧
      (poll_position_update pf a now s).state.lastPathCell =
        some (pyInt s.sensorY, pyInt s.sensorX) ∧
      (poll_position_update pf a now s).rescheduled = true) := by
  constructor
  · rw [poll_def pf a now s goal hg]
    split_ifs
    · rfl
    · simp only [hpf]
    · rfl
    · rfl
  · intro h
    obtain ⟨h1, h2⟩ := poll_invoked_updates pf a now s h
    refine ⟨h1, h2, ?_⟩
    rw [poll_def pf a now s goal hg] at h ⊢
    split_ifs at h ⊢
    rfl

/-- Witness for C8 at a concrete state and a pathfinder that always reports
no path. -/
theorem c8_witness :
    (poll_position_update (fun _ _ => none) true 5
        ⟨0, 0, 10, 10, some (0, 0), [(1, 1)], 0, none⟩).state.remainingPath = [(1, 1)] ∧
    ((poll_position_update (fun _ _ => none) true 5
        ⟨0, 0, 10, 10, some (0, 0), [(1, 1)], 0, none⟩).replanInvoked = true →
      (poll_position_update (fun _ _ => none) true 5
        ⟨0, 0, 10, 10, some (0, 0), [(1, 1)], 0, none⟩).state.lastPathTime = 5 ∧
      (poll_position_update (fun _ _ => none) true 5
        ⟨0, 0, 10, 10, some (0, 0), [(1, 1)], 0, none⟩).state.lastPathCell =
        some (pyInt 10, pyInt 10) ∧
      (poll_position_update (fun _ _ => none) true 5
        ⟨0, 0, 10, 10, some (0, 0), [(1, 1)], 0, none⟩).rescheduled = true) :=
  c8_notfound_keeps_path (fun _ _ => none) true 5
    ⟨0, 0, 10, 10, some (0, 0), [(1, 1)], 0, none⟩ (0, 0) rfl rfl

/-! ## C3: arrival fires exactly once -/

/-- Arrival firing at a tick with a goal set is exactly the sensor pose
being within the threshold (with the callback installed). -/
theorem poll_fired_iff (pf : Cell → Cell → Option (List Cell)) (now : ℝ)
    (s : NavState) (goal : Cell) (hg : s.currentGoal = some goal) :
    ((poll_position_update pf true now s).arrivalFired = true ↔
      Real.sqrt ((s.sensorX - (goal.2 : ℝ)) ^ 2 + (s.sensorY - (goal.1 : ℝ)) ^ 2) < 1.5) := by
  rw [poll_def pf true now s goal hg]
  split_ifs with h1 h2 h3 <;> simp [h1]

/-- A tick with a goal set stops re-arming the polling loop exactly when it
declares arrival. -/
theorem poll_rescheduled_iff (pf : Cell → Cell → Option (List Cell)) (a : Bool)
    (now : ℝ) (s : NavState) (goal : Cell) (hg : s.currentGoal = some goal) :
    ((poll_position_update pf a now s).rescheduled = false ↔
      Real.sqrt ((s.sensorX - (goal.2 : ℝ)) ^ 2 + (s.sensorY - (goal.1 : ℝ)) ^ 2) < 1.5) := by
  rw [poll_def pf a now s goal hg]
  split_ifs with h1 h2 h3 <;> simp [h1]

/-- Unfolding `runStates` at tick zero. -/
theorem runStates_zero (pf : Cell → Cell → Option (List Cell)) (a : Bool)
    (P : ℕ → ℝ × ℝ) (T : ℕ → ℝ) (s0 : NavState) :
    runStates pf a P T s0 0 = some s0 := rfl

/-- Unfolding `runStates` at a successor tick. -/
theorem runStates_succ (pf : Cell → Cell → Option (List Cell)) (a : Bool)
    (P : ℕ → ℝ × ℝ) (T : ℕ → ℝ) (s0 : NavState) (n : ℕ) :
    runStates pf a P T s0 (n + 1) =
      match runStates pf a P T s0 n with
      | none => none
      | some s =>
        if (poll_position_update pf a (T n)
            { s with sensorX := (P n).1, sensorY := (P n).2 }).rescheduled
        then some (poll_position_update pf a (T n)
            { s with sensorX := (P n).1, sensorY := (P n).2 }).state
        else none := rfl

/-- Step of a dead run. -/
theorem runStates_succ_none (pf : Cell → Cell → Option (List Cell)) (a : Bool)
    (P : ℕ → ℝ × ℝ) (T : ℕ → ℝ) (s0 : NavState) (n : ℕ)
    (hr : runStates pf a P T s0 n = none) :
    runStates pf a P T s0 (n + 1) = none := by
  rw [runStates_succ, hr]

/-- Step of a live run. -/
theorem runStates_succ_some (pf : Cell → Cell → Option (List Cell)) (a : Bool)
    (P : ℕ → ℝ × ℝ) (T : ℕ → ℝ) (s0 : NavState) (n : ℕ) (s : NavState)
    (hr : runStates pf a P T s0 n = some s) :
    runStates pf a P T s0 (n + 1) =
      if (poll_position_update pf a (T n)
          { s with sensorX := (P n).1, sensorY := (P n).2 }).rescheduled
      then some (poll_position_update pf a (T n)
          { s with sensorX := (P n).1, sensorY := (P n).2 }).state
      else none := by
  rw [runStates_succ, hr]

/-- Unfolding `firedAt`. -/
theorem firedAt_def (pf : Cell → Cell → Option (List Cell)) (a : Bool)
    (P : ℕ → ℝ × ℝ) (T : ℕ → ℝ) (s0 : NavState) (n : ℕ) :
    firedAt pf a P T s0 n =
      match runStates pf a P T s0 n with
      | none => false
      | some s =>
        (poll_position_update pf a (T n)
          { s with sensorX := (P n).1, sensorY := (P n).2 }).arrivalFired := rfl

/-- Every live state of the polling loop still carries the session goal. -/
theorem runStates_goal (pf : Cell → Cell → Option (List Cell)) (P : ℕ → ℝ × ℝ)
    (T : ℕ → ℝ) (s0 : NavState) (goal : Cell) (hg : s0.currentGoal = some goal) :
    ∀ n s, runStates pf true P T s0 n = some s → s.currentGoal = some goal := by
  intro n
  induction n with
  | zero =>
    intro s h
    rw [runStates_zero] at h
    injection h with h
    rw [← h]
    exact hg
  | succ m ih =>
    intro s h
    cases hr : runStates pf true P T s0 m with
    | none => rw [runStates_succ_none pf true P T s0 m hr] at h; cases h
    | some s' =>
      rw [runStates_succ_some pf true P T s0 m s' hr] at h
      by_cases hres : (poll_position_update pf true (T m)
          { s' with sensorX := (P m).1, sensorY := (P m).2 }).rescheduled
      · rw [if_pos hres] at h
        injection h with h
        rw [← h, poll_goal_invariant]
        exact ih s' hr
      · rw [if_neg hres] at h
        cases h

/-- A tick fires exactly when the loop is still live and that tick's sensor
sample is within the arrival threshold of the goal. -/
theorem firedAt_iff (pf : Cell → Cell → Option (List Cell)) (P : ℕ → ℝ × ℝ)
    (T : ℕ → ℝ) (s0 : NavState) (goal : Cell) (hg : s0.currentGoal = some goal)
    (n : ℕ) :
    firedAt pf true P T s0 n = true ↔
      ((∃ s, runStates pf true P T s0 n = some s) ∧
        Real.sqrt (((P n).1 - (goal.2 : ℝ)) ^ 2 + ((P n).2 - (goal.1 : ℝ)) ^ 2) < 1.5) := by
  rw [firedAt_def]
  cases hr : runStates pf true P T s0 n with
  | none => simp
  | some s =>
    have hgs : ({ s with sensorX := (P n).1, sensorY := (P n).2 } : NavState).currentGoal =
        some goal := runStates_goal pf P T s0 goal hg n s hr
    rw [poll_fired_iff pf (T n) _ goal hgs]
    simp

/-- Once a tick fires, the loop is dead at the next tick. -/
theorem fired_dead (pf : Cell → Cell → Option (List Cell)) (P : ℕ → ℝ × ℝ)
    (T : ℕ → ℝ) (s0 : NavState) (goal : Cell) (hg : s0.currentGoal = some goal)
    (n : ℕ) (h : firedAt pf true P T s0 n = true) :
    runStates pf true P T s0 (n + 1) = none := by
  obtain ⟨⟨s, hs⟩, hd⟩ := (firedAt_iff pf P T s0 goal hg n).mp h
  have hgs : ({ s with sensorX := (P n).1, sensorY := (P n).2 } : NavState).currentGoal =
      some goal := runStates_goal pf P T s0 goal hg n s hs
  have hres : (poll_position_update pf true (T n)
      { s with sensorX := (P n).1, sensorY := (P n).2 }).rescheduled = false :=
    (poll_rescheduled_iff pf true (T n) _ goal hgs).mpr hd
  rw [runStates_succ_some pf true P T s0 n s hs, hres]
  simp

/-- A dead loop stays dead. -/
theorem dead_mono (pf : Cell → Cell → Option (List Cell)) (a : Bool)
    (P : ℕ → ℝ × ℝ) (T : ℕ → ℝ) (s0 : NavState) :
    ∀ n m, n ≤ m → runStates pf a P T s0 n = none → runStates pf a P T s0 m = none := by
  intro n m hnm h
  induction m with
  | zero =>
    have : n = 0 := Nat.le_zero.mp hnm
    rw [← this]
    exact h
  | succ k ih =>
    rcases Nat.lt_or_ge n (k + 1) with hk | hk
    · exact runStates_succ_none pf a P T s0 k (ih (by omega))
    · have : n = k + 1 := by omega
      rw [← this]
      exact h

/-- A live tick whose sample is outside the threshold keeps the loop
live. -/
theorem live_step (pf : Cell → Cell → Option (List Cell)) (P : ℕ → ℝ × ℝ)
    (T : ℕ → ℝ) (s0 : NavState) (goal : Cell) (hg : s0.currentGoal = some goal)
    (n : ℕ) (s : NavState) (hs : runStates pf true P T s0 n = some s)
    (hd : ¬(Real.sqrt (((P n).1 - (goal.2 : ℝ)) ^ 2 + ((P n).2 - (goal.1 : ℝ)) ^ 2) < 1.5)) :
    ∃ s', runStates pf true P T s0 (n + 1) = some s' := by
  have hgs : ({ s with sensorX := (P n).1, sensorY := (P n).2 } : NavState).currentGoal =
      some goal := runStates_goal pf P T s0 goal hg n s hs
  have hres : (poll_position_update pf true (T n)
      { s with sensorX := (P n).1, sensorY := (P n).2 }).rescheduled = true := by
    rcases Bool.eq_false_or_eq_true ((poll_position_update pf true (T n)
        { s with sensorX := (P n).1, sensorY := (P n).2 }).rescheduled) with hb | hb
    · exact hb
    · exact absurd ((poll_rescheduled_iff pf true (T n) _ goal hgs).mp hb) hd
  refine ⟨(poll_position_update pf true (T n)
      { s with sensorX := (P n).1, sensorY := (P n).2 }).state, ?_⟩
  rw [runStates_succ_some pf true P T s0 n s hs, hres]
  simp

/-- At most one tick of a run fires. -/
theorem firedAt_unique (pf : Cell → Cell → Option (List Cell)) (P : ℕ → ℝ × ℝ)
    (T : ℕ → ℝ) (s0 : NavState) (goal : Cell) (hg : s0.currentGoal = some goal)
    (j k : ℕ) (hj : firedAt pf true P T s0 j = true)
    (hk : firedAt pf true P T s0 k = true) : j = k := by
  by_contra hne
  rcases Nat.lt_or_ge j k with hlt | hge
  · have hdead := dead_mono pf true P T s0 (j + 1) k hlt
      (fired_dead pf P T s0 goal hg j hj)
    obtain ⟨⟨s, hs⟩, -⟩ := (firedAt_iff pf P T s0 goal hg k).mp hk
    rw [hdead] at hs
    cases hs
  · have hlt2 : k < j := by omega
    have hdead := dead_mono pf true P T s0 (k + 1) j hlt2
      (fired_dead pf P T s0 goal hg k hk)
    obtain ⟨⟨s, hs⟩, -⟩ := (firedAt_iff pf P T s0 goal hg j).mp hj
    rw [hdead] at hs
    cases hs

/-- Splitting the fired counter at the last tick. -/
theorem firedCount_succ (pf : Cell → Cell → Option (List Cell)) (a : Bool)
    (P : ℕ → ℝ × ℝ) (T : ℕ → ℝ) (s0 : NavState) (n : ℕ) :
    firedCount pf a P T s0 (n + 1) =
      firedCount pf a P T s0 n + (if firedAt pf a P T s0 n = true then 1 else 0) := by
  unfold firedCount
  rw [List.range_succ, List.countP_append]
  simp [List.countP_cons]

/-- A prefix with no firing tick counts zero. -/
theorem firedCount_eq_zero (pf : Cell → Cell → Option (List Cell)) (a : Bool)
    (P : ℕ → ℝ × ℝ) (T : ℕ → ℝ) (s0 : NavState) (n : ℕ)
    (h : ∀ j, j < n → firedAt pf a P T s0 j = false) :
    firedCount pf a P T s0 n = 0 := by
  unfold firedCount
  rw [List.countP_eq_zero]
  intro j hj
  rw [List.mem_range] at hj
  simp [h j hj]

/-- C3: over any run of the polling loop the arrival callback fires at most
once, and it fires exactly once as soon as some tick's sensor sample comes
within the 1.5-unit arrival threshold of the goal. -/
theorem c3_arrival_fires_exactly_once (pf : Cell → Cell → Option (List Cell))
    (P : ℕ → ℝ × ℝ) (T : ℕ → ℝ) (s0 : NavState) (goal : Cell)
    (hg : s0.currentGoal = some goal) :
    (∀ n, firedCount pf true P T s0 n ≤ 1) ∧
    ((∃ k, Real.sqrt (((P k).1 - (goal.2 : ℝ)) ^ 2 + ((P k).2 - (goal.1 : ℝ)) ^ 2) < 1.5) →
      ∃ N, firedCount pf true P T s0 N = 1) := by
  constructor
  · intro n
    induction n with
    | zero => simp [firedCount]
    | succ m ih =>
      rw [firedCount_succ]
      by_cases hm : firedAt pf true P T s0 m = true
      · rw [if_pos hm]
        have h0 : firedCount pf true P T s0 m = 0 := by
          apply firedCount_eq_zero
          intro j hj
          rcases Bool.eq_false_or_eq_true (firedAt pf true P T s0 j) with hb | hb
          · exact absurd (firedAt_unique pf P T s0 goal hg j m hb hm) (by omega)
          · exact hb
        omega
      · rw [if_neg hm]
        omega
  · intro hex
    classical
    let k0 := Nat.find hex
    have hk0 : Real.sqrt (((P k0).1 - (goal.2 : ℝ)) ^ 2 + ((P k0).2 - (goal.1 : ℝ)) ^ 2) < 1.5 :=
      Nat.find_spec hex
    have hmin : ∀ j, j < k0 →
        ¬(Real.sqrt (((P j).1 - (goal.2 : ℝ)) ^ 2 + ((P j).2 - (goal.1 : ℝ)) ^ 2) < 1.5) :=
      fun j hj => Nat.find_min hex hj
    have hlive : ∀ j, j ≤ k0 → ∃ s, runStates pf true P T s0 j = some s := by
      intro j
      induction j with
      | zero => exact fun _ => ⟨s0, runStates_zero pf true P T s0⟩
      | succ i ih =>
        intro hik
        obtain ⟨s, hs⟩ := ih (by omega)
        exact live_step pf P T s0 goal hg i s hs (hmin i (by omega))
    have hfired : firedAt pf true P T s0 k0 = true :=
      (firedAt_iff pf P T s0 goal hg k0).mpr ⟨hlive k0 le_rfl, hk0⟩
    refine ⟨k0 + 1, ?_⟩
    rw [firedCount_succ, if_pos hfired]
    have h0 : firedCount pf true P T s0 k0 = 0 := by
      apply firedCount_eq_zero
      intro j hj
      rcases Bool.eq_false_or_eq_true (firedAt pf true P T s0 j) with hb | hb
      · exact absurd ((firedAt_iff pf P T s0 goal hg j).mp hb).2 (hmin j hj)
      · exact hb
    omega

/-- Witness for C3: with the goal at (5,5) and the sensor samples constant
at (5,5), the first tick fires; the run fires at most once and exactly
once. -/
theorem c3_witness :
    firedCount (fun _ _ => none) true (fun _ => (5, 5)) (fun n => (n : ℝ))
      ⟨0, 0, 0, 0, some (5, 5), [], 0, none⟩ 7 ≤ 1 ∧
    (∃ N, firedCount (fun _ _ => none) true (fun _ => (5, 5)) (fun n => (n : ℝ))
      ⟨0, 0, 0, 0, some (5, 5), [], 0, none⟩ N = 1) :=
  ⟨(c3_arrival_fires_exactly_once (fun _ _ => none) (fun _ => (5, 5)) (fun n => (n : ℝ))
      ⟨0, 0, 0, 0, some (5, 5), [], 0, none⟩ (5, 5) rfl).1 7,
   (c3_arrival_fires_exactly_once (fun _ _ => none) (fun _ => (5, 5)) (fun n => (n : ℝ))
      ⟨0, 0, 0, 0, some (5, 5), [], 0, none⟩ (5, 5) rfl).2
     ⟨0, by norm_num⟩⟩

/-! ## C1: theta_star on a Blocked start cell -/

/-- Unfolding one iteration of the `theta_star` search loop. -/
theorem thetaLoop_succ (grid : Grid) (goal : Cell) (n : ℕ) (st : SearchState) :
    thetaLoop grid goal (n + 1) st =
      match popMin st.open_set with
      | none => none
      | some ((_, current), rest) =>
        if current = goal then
          some (reconstructPath st.parent (st.parent.length + 1) current [current])
        else
          thetaLoop grid goal n
            (neighbors.foldl (relaxNeighbor grid goal current) { st with open_set := rest }) := rfl

/-- C1 (defect record): on the 1x2 grid `[[1, 0]]` the start cell (0,0) is
Blocked, yet `theta_star` returns the path [(0,0), (0,1)] — a path that
starts inside an obstacle — instead of the no-path sentinel `None` the
specification requires for a Blocked start.  (A Blocked goal is skipped by
the neighbour filter, but no check rejects a Blocked start, whose free
neighbours are reached through the standard relaxation branch.) -/
theorem c1_blocked_start_returns_path :
    cellAt tinyGrid (0, 0) = 1 ∧
    theta_star tinyGrid (0, 0) (0, 1) = some [(0, 0), (0, 1)] := by
  refine ⟨by decide, ?_⟩
  show thetaLoop tinyGrid (0, 1) 3000
    ⟨[((0 : EReal), ((0 : ℤ), (0 : ℤ)))],
     [(((0 : ℤ), (0 : ℤ)), ((0 : ℤ), (0 : ℤ)))],
     [(((0 : ℤ), (0 : ℤ)), (0 : EReal))]⟩ = some [(0, 0), (0, 1)]
  rw [show (3000 : ℕ) = 2999 + 1 from by norm_num, thetaLoop_succ]
  show thetaLoop tinyGrid (0, 1) 2999
      (if (0 : EReal) + ((distance ((0 : ℤ), (0 : ℤ)) ((0 : ℤ), (1 : ℤ)) : ℝ) : EReal) <
          (⊤ : EReal) then
        ⟨[((0 : EReal) + ((distance ((0 : ℤ), (0 : ℤ)) ((0 : ℤ), (1 : ℤ)) : ℝ) : EReal) +
            ((heuristic ((0 : ℤ), (1 : ℤ)) ((0 : ℤ), (1 : ℤ)) : ℝ) : EReal), ((0 : ℤ), (1 : ℤ)))],
         [(((0 : ℤ), (0 : ℤ)), ((0 : ℤ), (0 : ℤ))), (((0 : ℤ), (1 : ℤ)), ((0 : ℤ), (0 : ℤ)))],
         [(((0 : ℤ), (0 : ℤ)), (0 : EReal)),
          (((0 : ℤ), (1 : ℤ)), (0 : EReal) +
            ((distance ((0 : ℤ), (0 : ℤ)) ((0 : ℤ), (1 : ℤ)) : ℝ) : EReal))]⟩
        else
        ⟨[], [(((0 : ℤ), (0 : ℤ)), ((0 : ℤ), (0 : ℤ)))],
         [(((0 : ℤ), (0 : ℤ)), (0 : EReal)), (((0 : ℤ), (1 : ℤ)), (⊤ : EReal))]⟩) =
      some [(0, 0), (0, 1)]
  rw [if_pos (show (0 : EReal) +
      ((distance ((0 : ℤ), (0 : ℤ)) ((0 : ℤ), (1 : ℤ)) : ℝ) : EReal) < (⊤ : EReal) from by
    rw [zero_add]; exact EReal.coe_lt_top _)]
  rw [show (2999 : ℕ) = 2998 + 1 from by norm_num, thetaLoop_succ]
  rfl

end StoreNav
